import Mathlib

/-!
Verification of the `concatfile` Ansible module (`library/concatfile.py`).

The development shallowly embeds the target-side Append Operator (`main` in
`library/concatfile.py`).  The filesystem is a finite association list from
path strings to entries (regular file with content and read/write permission
bits, directory, or symbolic link).  External collaborators that the module
calls (`module.sha1`, `module.md5`, the `module.backup_local` timestamp,
`module.set_fs_attributes_if_different`) are abstracted into an environment
record: digests are opaque functions of the file content, the backup name
suffix is an opaque timestamp string, and the attribute collaborator verdict
(whether the file-attribute reconciliation reported a change) is a boolean.
`IOError` raised while reading/writing inside the `try` block is modelled with
`Except`.
-/

namespace Concatfile

/-- A filesystem entry: a regular file (content, readable bit, writable bit),
a directory, or a symbolic link to another path. -/
inductive Entry where
  | file (content : String) (readable : Bool) (writable : Bool)
  | dir
  | symlink (target : String)
deriving DecidableEq, Repr

/-- The filesystem: an association list from paths to entries.  Earlier
entries shadow later ones (so consing a pair overwrites a path). -/
abbrev FS := List (String × Entry)

/-- Look a path up in the filesystem (no symlink following). -/
def find : FS → String → Option Entry
  | [], _ => none
  | (q, e) :: rest, p => if p = q then some e else find rest p

/-- Follow a chain of symbolic links, with fuel (models `os.path.realpath`;
the fuel plays the role of the kernel limit on symlink recursion).  A
non-symlink path (existing or not) resolves to itself. -/
def realpath (fs : FS) : Nat → String → String
  | 0, p => p
  | fuel + 1, p =>
    match find fs p with
    | some (.symlink t) => realpath fs fuel t
    | _ => p

/-- `os.path.realpath` with the standard fuel. -/
def realpathN (fs : FS) (p : String) : String := realpath fs 40 p

/-- `os.path.exists`: follows symlinks; true iff the resolved path is an
existing file or directory. -/
def pathExists (fs : FS) (p : String) : Bool :=
  match find fs (realpathN fs p) with
  | some (.symlink _) => false
  | some _ => true
  | none => false

/-- `os.path.islink`: no symlink following on the final component. -/
def islink (fs : FS) (p : String) : Bool :=
  match find fs p with
  | some (.symlink _) => true
  | _ => false

/-- `os.path.isdir`: follows symlinks. -/
def isdir (fs : FS) (p : String) : Bool :=
  match find fs (realpathN fs p) with
  | some .dir => true
  | _ => false

/-- `os.access(p, os.R_OK)`: readability of the resolved path. -/
def accessR (fs : FS) (p : String) : Bool :=
  match find fs (realpathN fs p) with
  | some (.file _ r _) => r
  | some .dir => true
  | _ => false

/-- Content of the (resolved) file at a path; empty for non-files.  Used to
feed the digest collaborators. -/
def contentAt (fs : FS) (p : String) : String :=
  match find fs (realpathN fs p) with
  | some (.file c _ _) => c
  | _ => ""

/-- Opening a file for reading and reading it whole: fails (IOError) unless the resolved path is a
readable regular file. -/
def readFile (fs : FS) (p : String) : Except Unit String :=
  match find fs (realpathN fs p) with
  | some (.file c r _) => if r then .ok c else .error ()
  | _ => .error ()

/-- Replace the content of the file entry at a path, keeping its
permission bits. -/
def setContent : FS → String → String → FS
  | [], _, _ => []
  | (q, e) :: rest, p, c =>
    if p = q then
      (q, match e with
          | .file _ r w => .file c r w
          | other => other) :: rest
    else (q, e) :: setContent rest p c

/-- Remove all entries at a path (`os.unlink`, modulo shadowing). -/
def removePath (fs : FS) (p : String) : FS :=
  fs.filter (fun qe => qe.1 != p)

/-- `module.append_to_file(p, s)`: open the resolved path in append mode and
write; fails (IOError) unless it is a writable regular file. -/
def appendToFile (fs : FS) (p s : String) : Except Unit FS :=
  let rp := realpathN fs p
  match find fs rp with
  | some (.file c _ w) => if w then .ok (setContent fs rp (c ++ s)) else .error ()
  | _ => .error ()

/-- `module.backup_local(p)`: copy the file at `p` to `p + "." + timestamp`
and return the backup path; copying reads `p`, so an unreadable file raises
IOError. -/
def backupLocal (ts : String) (fs : FS) (p : String) : Except Unit (FS × String) :=
  let bp := p ++ "." ++ ts
  match find fs (realpathN fs p) with
  | some (.file c r _) =>
    if r then .ok ((bp, .file c true true) :: fs, bp) else .error ()
  | _ => .error ()

/-- Prefix test on character lists. -/
def isPrefixOfChars : List Char → List Char → Bool
  | [], _ => true
  | _ :: _, [] => false
  | a :: as, b :: bs => a == b && isPrefixOfChars as bs

/-- Substring test on character lists (`needle` occurs inside `hay`). -/
def hasSubstr (needle : List Char) : List Char → Bool
  | [] => needle.isEmpty
  | h :: t => isPrefixOfChars needle (h :: t) || hasSubstr needle t

/-- Python `needle in hay` on strings (substring containment; the empty
needle is contained in everything). -/
def strContains (hay needle : String) : Bool :=
  hasSubstr needle.data hay.data

/-- A value of the result dictionary (`res_args`): a string, a boolean, or
the Python null value. -/
inductive Value where
  | str (s : String)
  | bool (b : Bool)
  | none
deriving DecidableEq, Repr

/-- The fields the module puts into `res_args` before serialisation. -/
structure ResArgs where
  dest : String
  src : String
  md5sum : Value
  checksum : String
  check : Bool
  changed : Bool
  backup_file : Option String
deriving DecidableEq, Repr

/-- The result dictionary as the module builds it: the six unconditional
keys in source order, then `backup_file` only when a backup path was
recorded (`if backup_file:`). -/
def ResArgs.toFields (r : ResArgs) : List (String × Value) :=
  [("dest", .str r.dest), ("src", .str r.src), ("md5sum", r.md5sum),
   ("checksum", .str r.checksum), ("check", .bool r.check),
   ("changed", .bool r.changed)]
  ++ (match r.backup_file with
      | some bf => [("backup_file", .str bf)]
      | Option.none => [])

/-- Dictionary key lookup on the serialised result. -/
def getVal : List (String × Value) → String → Option Value
  | [], _ => Option.none
  | (k, v) :: rest, key => if key = k then some v else getVal rest key

/-- The abstracted collaborators: digest primitives (as functions of file
content), MD5 availability (false in FIPS mode, where `module.md5` raises
`ValueError`), the timestamp used by `backup_local`, and the verdict of
`module.set_fs_attributes_if_different` (whether attribute reconciliation
reported a change). -/
structure Env where
  sha1 : String → String
  md5 : String → String
  md5Available : Bool
  timestamp : String
  attrDelta : Bool

/-- The module parameters as extracted from `module.params`. -/
structure Request where
  src : String
  dest : String
  backup : Bool
  force : Bool
  check : Bool

/-- Outcome of one invocation: `module.exit_json` with the result fields, or
`module.fail_json` with a message.  Both carry the filesystem state at exit
(a failure inside the `try` block keeps any partial mutation, e.g. an
orphaned backup). -/
inductive Outcome where
  | ok (res : ResArgs) (fs : FS)
  | failed (msg : String) (fs : FS)
deriving DecidableEq, Repr

/-- The filesystem after the call. -/
def Outcome.fsAfter : Outcome → FS
  | .ok _ fs => fs
  | .failed _ fs => fs

/-- Whether the call succeeded (`exit_json` rather than `fail_json`). -/
def Outcome.isOk : Outcome → Bool
  | .ok _ _ => true
  | .failed _ _ => false

/-- The result record of a successful call. -/
def Outcome.resArgs : Outcome → Option ResArgs
  | .ok r _ => some r
  | .failed _ _ => Option.none

/-- The `changed` flag of a successful call. -/
def Outcome.changedResult : Outcome → Option Bool
  | .ok r _ => some r.changed
  | .failed _ _ => Option.none

/-- The failure message of a failed call. -/
def Outcome.failMsg : Outcome → Option String
  | .ok _ _ => Option.none
  | .failed m _ => some m

/-- The coarse failure message of the `try` block
(`"failed to append: %s to %s"`). -/
def appendMsg (src dest : String) : String :=
  "failed to append: " ++ src ++ " to " ++ dest

/-- The `try` block of `main` plus result assembly: symlink conversion,
source read, the three-way branch on (`force`, `check`), `except IOError`,
`res_args` construction and the final `set_fs_attributes_if_different`
update of `changed`. -/
def appendPhase (env : Env) (fs0 : FS) (src dest : String)
    (backup force check : Bool) (md5sum_src : Value) (checksum_src : String) :
    Outcome :=
  -- "# allow for conversion from symlink."
  let fs := if islink fs0 dest then
      (dest, Entry.file "" true true) :: removePath fs0 dest
    else fs0
  match readFile fs src with
  | .error _ => .failed (appendMsg src dest) fs
  | .ok sourcefile =>
    let step : Except FS (FS × Bool × Option String) :=
      if !force && !check then
        match readFile fs dest with
        | .error _ => .error fs
        | .ok destfile =>
          if strContains destfile sourcefile then
            .ok (fs, false, Option.none)
          else
            match (if backup then (backupLocal env.timestamp fs dest).map
                        (fun r => (r.1, some r.2))
                   else .ok (fs, Option.none)) with
            | .error _ => .error fs
            | .ok (fs1, bf) =>
              match appendToFile fs1 dest sourcefile with
              | .error _ => .error fs1
              | .ok fs2 => .ok (fs2, true, bf)
      else if !check then
        match (if backup then (backupLocal env.timestamp fs dest).map
                    (fun r => (r.1, some r.2))
               else .ok (fs, Option.none)) with
        | .error _ => .error fs
        | .ok (fs1, bf) =>
          match appendToFile fs1 dest sourcefile with
          | .error _ => .error fs1
          | .ok fs2 => .ok (fs2, true, bf)
      else
        match readFile fs dest with
        | .error _ => .error fs
        | .ok destfile =>
          if strContains destfile sourcefile then
            .ok (fs, false, Option.none)
          else
            .ok (fs, true, Option.none)
    match step with
    | .error fsE => .failed (appendMsg src dest) fsE
    | .ok (fs2, changed, backup_file) =>
      let res : ResArgs :=
        { dest := dest, src := src, md5sum := md5sum_src,
          checksum := checksum_src, check := check, changed := changed,
          backup_file := backup_file }
      -- the final update of changed by set_fs_attributes_if_different
      let res := { res with changed := res.changed || env.attrDelta }
      .ok res fs2

/-- The Append Operator: `main()` of `library/concatfile.py`, from the source
existence/readability preconditions through `exit_json`. -/
def main (env : Env) (req : Request) (fs : FS) : Outcome :=
  let src := req.src
  let dest := req.dest
  if !pathExists fs src then
    .failed ("Source " ++ src ++ " not found") fs
  else if !accessR fs src then
    .failed ("Source " ++ src ++ " not readable") fs
  else
    let checksum_src := env.sha1 (contentAt fs src)
    let md5sum_src : Value :=
      if env.md5Available then .str (env.md5 (contentAt fs src)) else .none
    if pathExists fs dest then
      let dest := if islink fs dest then realpathN fs dest else dest
      if isdir fs dest then
        .failed ("Source " ++ dest ++ " is directory, must be file") fs
      else
        -- checksum_dest (computed when dest is readable) is never used.
        appendPhase env fs src dest req.backup req.force req.check
          md5sum_src checksum_src
    else
      .failed ("Destination " ++ dest ++ " doesn't exists") fs

/-- The usual two-file filesystem the content claims quantify over: a
readable source file and a destination file with the given permission
bits. -/
def plainFS (src dest sc dc : String) (dr dw : Bool) : FS :=
  [(src, .file sc true true), (dest, .file dc dr dw)]

/-- A filesystem whose destination argument is a symlink to an existing
regular file: a readable source, the symlink, and its target. -/
def linkFS (src link target sc dc : String) : FS :=
  [(src, .file sc true true), (link, .symlink target), (target, .file dc true true)]

/-- A concrete environment for closed witnesses: symbolic digest tags, a
fixed timestamp, and selectable MD5 availability / attribute verdict. -/
def mkEnv (md5Avail attrDelta : Bool) : Env :=
  ⟨fun s => "sha1(" ++ s ++ ")", fun s => "md5(" ++ s ++ ")",
   md5Avail, "TS", attrDelta⟩

/-! Supporting lemmas. -/

@[simp] theorem find_nil (p : String) : find [] p = none := rfl

@[simp] theorem find_cons (q : String) (e : Entry) (rest : FS) (p : String) :
    find ((q, e) :: rest) p = if p = q then some e else find rest p := rfl

theorem realpath_succ (fs : FS) (n : Nat) (p : String) :
    realpath fs (n + 1) p =
      match find fs p with
      | some (.symlink t) => realpath fs n t
      | _ => p := rfl

theorem realpath_nonlink_fuel (fs : FS) (n : Nat) (p : String)
    (h : ∀ t, find fs p ≠ some (.symlink t)) : realpath fs (n + 1) p = p := by
  rw [realpath_succ]
  cases hf : find fs p with
  | none => rfl
  | some e =>
    cases e with
    | file c r w => rfl
    | dir => rfl
    | symlink t => exact absurd hf (h t)

/-- A path whose entry is not a symlink resolves to itself. -/
theorem realpathN_nonlink (fs : FS) (p : String)
    (h : ∀ t, find fs p ≠ some (.symlink t)) : realpathN fs p = p :=
  realpath_nonlink_fuel fs 39 p h

/-- A one-step symlink to a non-symlink entry resolves to its target. -/
theorem realpathN_link (fs : FS) (p t : String)
    (h1 : find fs p = some (.symlink t))
    (h2 : ∀ u, find fs t ≠ some (.symlink u)) : realpathN fs p = t := by
  show realpath fs (39 + 1) p = t
  rw [realpath_succ, h1]
  exact realpath_nonlink_fuel fs 38 t h2

theorem ne_append_right (a b : String) (hb : b.length ≠ 0) : a ≠ a ++ b := by
  intro h
  have hl := congrArg String.length h
  rw [String.length_append] at hl
  omega

/-- A backup path (`p ++ "." ++ timestamp`) never collides with `p`. -/
theorem ne_backupPath (p ts : String) : p ≠ p ++ "." ++ ts := by
  have h1 : p ++ "." ++ ts = p ++ ("." ++ ts) := by
    rw [String.append_assoc]
  rw [h1]
  refine ne_append_right p ("." ++ ts) ?_
  rw [String.length_append]
  have : ".".length = 1 := rfl
  omega

theorem not_symlink_of_find_file {fs : FS} {p : String} {c : String} {r w : Bool}
    (h : find fs p = some (.file c r w)) :
    ∀ t, find fs p ≠ some (.symlink t) := by
  intro t hc
  rw [h] at hc
  cases hc

/-- A regular-file path resolves to itself. -/
theorem realpathN_file {fs : FS} {p : String} {c : String} {r w : Bool}
    (h : find fs p = some (.file c r w)) : realpathN fs p = p :=
  realpathN_nonlink fs p (not_symlink_of_find_file h)

theorem pathExists_file {fs : FS} {p : String} {c : String} {r w : Bool}
    (h : find fs p = some (.file c r w)) : pathExists fs p = true := by
  simp [pathExists, realpathN_file h, h]

theorem accessR_file {fs : FS} {p : String} {c : String} {r w : Bool}
    (h : find fs p = some (.file c r w)) : accessR fs p = r := by
  simp [accessR, realpathN_file h, h]

theorem islink_file {fs : FS} {p : String} {c : String} {r w : Bool}
    (h : find fs p = some (.file c r w)) : islink fs p = false := by
  simp [islink, h]

theorem isdir_file {fs : FS} {p : String} {c : String} {r w : Bool}
    (h : find fs p = some (.file c r w)) : isdir fs p = false := by
  simp [isdir, realpathN_file h, h]

theorem contentAt_file {fs : FS} {p : String} {c : String} {r w : Bool}
    (h : find fs p = some (.file c r w)) : contentAt fs p = c := by
  simp [contentAt, realpathN_file h, h]

theorem readFile_file {fs : FS} {p : String} {c : String} {r w : Bool}
    (h : find fs p = some (.file c r w)) :
    readFile fs p = if r then .ok c else .error () := by
  simp [readFile, realpathN_file h, h]

theorem appendToFile_file {fs : FS} {p : String} {c : String} {r w : Bool}
    (h : find fs p = some (.file c r w)) (s : String) :
    appendToFile fs p s =
      if w then .ok (setContent fs p (c ++ s)) else .error () := by
  simp [appendToFile, realpathN_file h, h]

theorem backupLocal_file {fs : FS} {p : String} {c : String} {r w : Bool}
    (h : find fs p = some (.file c r w)) (ts : String) :
    backupLocal ts fs p =
      if r then .ok ((p ++ "." ++ ts, .file c true true) :: fs, p ++ "." ++ ts)
      else .error () := by
  simp [backupLocal, realpathN_file h, h]

theorem not_symlink_of_find_dir {fs : FS} {p : String}
    (h : find fs p = some .dir) : ∀ t, find fs p ≠ some (.symlink t) := by
  intro t hc
  rw [h] at hc
  cases hc

theorem islink_link {fs : FS} {p t : String}
    (h : find fs p = some (.symlink t)) : islink fs p = true := by
  simp [islink, h]

theorem pathExists_link_file {fs : FS} {p t : String} {c : String} {r w : Bool}
    (h1 : find fs p = some (.symlink t)) (h2 : find fs t = some (.file c r w)) :
    pathExists fs p = true := by
  simp [pathExists, realpathN_link fs p t h1 (not_symlink_of_find_file h2), h2]

theorem pathExists_link_dir {fs : FS} {p t : String}
    (h1 : find fs p = some (.symlink t)) (h2 : find fs t = some .dir) :
    pathExists fs p = true := by
  simp [pathExists, realpathN_link fs p t h1 (not_symlink_of_find_dir h2), h2]

theorem isdir_dir {fs : FS} {p : String} (h : find fs p = some .dir) :
    isdir fs p = true := by
  simp [isdir, realpathN_nonlink fs p (not_symlink_of_find_dir h), h]

theorem linkFS_find_src (src link target sc dc : String) :
    find (linkFS src link target sc dc) src = some (.file sc true true) := by
  simp [linkFS]

theorem linkFS_find_link (src link target sc dc : String) (h : link ≠ src) :
    find (linkFS src link target sc dc) link = some (.symlink target) := by
  simp [linkFS, h]

theorem linkFS_find_target (src link target sc dc : String)
    (h1 : target ≠ src) (h2 : target ≠ link) :
    find (linkFS src link target sc dc) target = some (.file dc true true) := by
  simp [linkFS, h1, h2]

theorem setContent_linkFS_target (src link target sc dc c : String)
    (h1 : target ≠ src) (h2 : target ≠ link) :
    setContent (linkFS src link target sc dc) target c =
      [(src, .file sc true true), (link, .symlink target),
       (target, .file c true true)] := by
  simp [linkFS, setContent, h1, h2]

theorem setContent_plainFS_dest (src dest sc dc : String) (dr dw : Bool)
    (c : String) (hne' : dest ≠ src) :
    setContent (plainFS src dest sc dc dr dw) dest c =
      [(src, .file sc true true), (dest, .file c dr dw)] := by
  simp [plainFS, setContent, hne']

theorem setContent_cons_plainFS_dest (bp : String) (e : Entry)
    (src dest sc dc : String) (dr dw : Bool) (c : String)
    (hne' : dest ≠ src) (hbp : dest ≠ bp) :
    setContent ((bp, e) :: plainFS src dest sc dc dr dw) dest c =
      [(bp, e), (src, .file sc true true), (dest, .file c dr dw)] := by
  simp [plainFS, setContent, hne', hbp]

theorem plainFS_find_src (src dest sc dc : String) (dr dw : Bool) :
    find (plainFS src dest sc dc dr dw) src = some (.file sc true true) := by
  simp [plainFS]

theorem plainFS_find_dest (src dest sc dc : String) (dr dw : Bool)
    (hne : dest ≠ src) :
    find (plainFS src dest sc dc dr dw) dest = some (.file dc dr dw) := by
  simp [plainFS, hne]

theorem getVal_toFields_md5sum (r : ResArgs) :
    getVal r.toFields "md5sum" = some r.md5sum := by
  simp [ResArgs.toFields, getVal]

theorem getVal_toFields_backup_file (r : ResArgs) :
    getVal r.toFields "backup_file" = r.backup_file.map Value.str := by
  cases hbf : r.backup_file <;> simp [ResArgs.toFields, getVal, hbf]

/-! Claims. -/

/-- Claim C6: Every precondition failure terminates the operation with its
specific message and leaves the filesystem untouched; the source existence
and readability checks come first and fail for every destination state, so a
missing/unreadable source fails before any destination access. -/
theorem c6_precondition_failures (env : Env) (req : Request) (fs : FS) :
    (pathExists fs req.src = false →
      main env req fs = .failed ("Source " ++ req.src ++ " not found") fs) ∧
    (pathExists fs req.src = true → accessR fs req.src = false →
      main env req fs = .failed ("Source " ++ req.src ++ " not readable") fs) ∧
    (pathExists fs req.src = true → accessR fs req.src = true →
      pathExists fs req.dest = false →
      main env req fs =
        .failed ("Destination " ++ req.dest ++ " doesn't exists") fs) ∧
    (pathExists fs req.src = true → accessR fs req.src = true →
      pathExists fs req.dest = true →
      isdir fs (if islink fs req.dest then realpathN fs req.dest
                else req.dest) = true →
      main env req fs =
        .failed ("Source " ++
          (if islink fs req.dest then realpathN fs req.dest else req.dest) ++
          " is directory, must be file") fs) := by
  refine ⟨?_, ?_, ?_, ?_⟩
  · intro h1
    simp [main, h1]
  · intro h1 h2
    simp [main, h1, h2]
  · intro h1 h2 h3
    simp [main, h1, h2, h3]
  · intro h1 h2 h3 h4
    simp [main, h1, h2, h3, h4]

/-- Witness for C6: each precondition failure demonstrated on a concrete
filesystem (missing source, unreadable source, missing destination,
destination resolving to a directory). -/
theorem c6_precondition_failures_witness :
    (main ⟨fun s => s, fun s => s, true, "TS", false⟩ ⟨"s", "d", false, true, false⟩
        [("d", .file "x" true true)] =
      .failed "Source s not found" [("d", .file "x" true true)]) ∧
    (main ⟨fun s => s, fun s => s, true, "TS", false⟩ ⟨"s", "d", false, true, false⟩
        [("s", .file "a" false true), ("d", .file "x" true true)] =
      .failed "Source s not readable"
        [("s", .file "a" false true), ("d", .file "x" true true)]) ∧
    (main ⟨fun s => s, fun s => s, true, "TS", false⟩ ⟨"s", "d", false, true, false⟩
        [("s", .file "a" true true)] =
      .failed "Destination d doesn't exists" [("s", .file "a" true true)]) ∧
    (main ⟨fun s => s, fun s => s, true, "TS", false⟩ ⟨"s", "d", false, true, false⟩
        [("s", .file "a" true true), ("d", .dir)] =
      .failed "Source d is directory, must be file"
        [("s", .file "a" true true), ("d", .dir)]) := by
  refine ⟨?_, ?_, ?_, ?_⟩
  · exact (c6_precondition_failures _ _ _).1 (by decide)
  · exact (c6_precondition_failures _ _ _).2.1 (by decide) (by decide)
  · exact (c6_precondition_failures _ _ _).2.2.1 (by decide) (by decide) (by decide)
  · have h := (c6_precondition_failures
      ⟨fun s => s, fun s => s, true, "TS", false⟩ ⟨"s", "d", false, true, false⟩
      [("s", .file "a" true true), ("d", .dir)]).2.2.2
      (by decide) (by decide) (by decide)
    simpa using h (by decide)

/-- Claim C1: With `force=false`, no check mode, and the source content already
a substring of the destination content, the call succeeds with
`changed=false` and the filesystem (in particular the destination content)
is unchanged.  The file-attribute collaborator is assumed to report no
attribute change (otherwise it would OR `changed` to true downstream of the
append decision). -/
theorem c1_force_false_idempotent (env : Env) (src dest sc dc : String)
    (dw backup : Bool) (hne : src ≠ dest) (hattr : env.attrDelta = false)
    (hsub : strContains dc sc = true) :
    main env ⟨src, dest, backup, false, false⟩ (plainFS src dest sc dc true dw) =
      .ok ⟨dest, src,
           (if env.md5Available then .str (env.md5 sc) else .none),
           env.sha1 sc, false, false, Option.none⟩
        (plainFS src dest sc dc true dw) := by
  have hne' : dest ≠ src := Ne.symm hne
  have hfs := plainFS_find_src src dest sc dc true dw
  have hfd := plainFS_find_dest src dest sc dc true dw hne'
  simp [main, appendPhase, pathExists_file hfs, accessR_file hfs,
    pathExists_file hfd, islink_file hfd, isdir_file hfd,
    contentAt_file hfs, readFile_file hfs, readFile_file hfd, hsub, hattr]

/-- Witness for C1 on the concrete pair `("abc", "xabcx")`. -/
theorem c1_force_false_idempotent_witness :
    ("s" : String) ≠ "d" ∧
    (mkEnv true false).attrDelta = false ∧
    strContains "xabcx" "abc" = true ∧
    main (mkEnv true false) ⟨"s", "d", false, false, false⟩
        (plainFS "s" "d" "abc" "xabcx" true true) =
      .ok ⟨"d", "s", .str "md5(abc)", "sha1(abc)", false, false, Option.none⟩
        (plainFS "s" "d" "abc" "xabcx" true true) :=
  ⟨by decide, rfl, by decide,
   c1_force_false_idempotent (mkEnv true false) "s" "d" "abc" "xabcx" true false
     (by decide) rfl (by decide)⟩

/-- Claim C2: With `force=true` and no check mode, the call reports
`changed=true` and the destination content afterwards is exactly the
original destination content followed by the source content — no
deduplication and no separator, whatever the contents (including when the
source content was already present, e.g. identical contents double the
destination). -/
theorem c2_force_unconditional_append (env : Env) (src dest sc dc : String)
    (backup : Bool) (hne : src ≠ dest) :
    (main env ⟨src, dest, backup, true, false⟩
        (plainFS src dest sc dc true true)).changedResult = some true ∧
    contentAt (main env ⟨src, dest, backup, true, false⟩
        (plainFS src dest sc dc true true)).fsAfter dest = dc ++ sc := by
  have hne' : dest ≠ src := Ne.symm hne
  have hbp : dest ≠ dest ++ "." ++ env.timestamp := ne_backupPath dest env.timestamp
  have hfs := plainFS_find_src src dest sc dc true true
  have hfd := plainFS_find_dest src dest sc dc true true hne'
  cases backup with
  | false =>
    have hfd2 : find [(src, Entry.file sc true true),
        (dest, Entry.file (dc ++ sc) true true)] dest =
        some (.file (dc ++ sc) true true) := by simp [hne']
    constructor
    · simp [main, appendPhase, Outcome.changedResult, pathExists_file hfs,
        accessR_file hfs, pathExists_file hfd, islink_file hfd,
        isdir_file hfd, contentAt_file hfs, readFile_file hfs,
        appendToFile_file hfd, setContent_plainFS_dest _ _ _ _ _ _ _ hne']
    · simp [main, appendPhase, Outcome.fsAfter, pathExists_file hfs,
        accessR_file hfs, pathExists_file hfd, islink_file hfd,
        isdir_file hfd, contentAt_file hfs, readFile_file hfs,
        appendToFile_file hfd, setContent_plainFS_dest _ _ _ _ _ _ _ hne',
        contentAt_file hfd2]
  | true =>
    have hfd1 : find ((dest ++ "." ++ env.timestamp, Entry.file dc true true) ::
        plainFS src dest sc dc true true) dest = some (.file dc true true) := by
      simp [plainFS, hne', hbp]
    have hfd2 : find [(dest ++ "." ++ env.timestamp, Entry.file dc true true),
        (src, Entry.file sc true true),
        (dest, Entry.file (dc ++ sc) true true)] dest =
        some (.file (dc ++ sc) true true) := by simp [hne', hbp]
    constructor
    · simp [main, appendPhase, Outcome.changedResult, pathExists_file hfs,
        accessR_file hfs, pathExists_file hfd, islink_file hfd,
        isdir_file hfd, contentAt_file hfs, readFile_file hfs,
        backupLocal_file hfd, appendToFile_file hfd1, Except.map,
        setContent_cons_plainFS_dest _ _ _ _ _ _ _ _ _ hne' hbp]
    · simp [main, appendPhase, Outcome.fsAfter, pathExists_file hfs,
        accessR_file hfs, pathExists_file hfd, islink_file hfd,
        isdir_file hfd, contentAt_file hfs, readFile_file hfs,
        backupLocal_file hfd, appendToFile_file hfd1, Except.map,
        setContent_cons_plainFS_dest _ _ _ _ _ _ _ _ _ hne' hbp,
        contentAt_file hfd2]

/-- Witness for C2: identical source and destination content `"A\n"` is
doubled by a forced append. -/
theorem c2_force_unconditional_append_witness :
    ("s" : String) ≠ "d" ∧
    (main (mkEnv true false) ⟨"s", "d", false, true, false⟩
        (plainFS "s" "d" "A\n" "A\n" true true)).changedResult = some true ∧
    contentAt (main (mkEnv true false) ⟨"s", "d", false, true, false⟩
        (plainFS "s" "d" "A\n" "A\n" true true)).fsAfter "d" = "A\n" ++ "A\n" :=
  ⟨by decide,
   (c2_force_unconditional_append (mkEnv true false) "s" "d" "A\n" "A\n" false
     (by decide)).1,
   (c2_force_unconditional_append (mkEnv true false) "s" "d" "A\n" "A\n" false
     (by decide)).2⟩

/-- Claim C3: In check mode (any `force`, any `backup`) nothing is mutated and
no backup is made — the call returns with the filesystem exactly as it was —
and `changed` is reported true exactly when the source content is not a
substring of the destination content (with the attribute collaborator
reporting no change, which would otherwise OR into `changed`). -/
theorem c3_check_mode_dry_run (env : Env) (src dest sc dc : String)
    (dw backup force : Bool) (hne : src ≠ dest) (hattr : env.attrDelta = false) :
    main env ⟨src, dest, backup, force, true⟩ (plainFS src dest sc dc true dw) =
      .ok ⟨dest, src,
           (if env.md5Available then .str (env.md5 sc) else .none),
           env.sha1 sc, true, !(strContains dc sc), Option.none⟩
        (plainFS src dest sc dc true dw) := by
  have hne' : dest ≠ src := Ne.symm hne
  have hfs := plainFS_find_src src dest sc dc true dw
  have hfd := plainFS_find_dest src dest sc dc true dw hne'
  cases hsub : strContains dc sc <;>
    simp [main, appendPhase, pathExists_file hfs, accessR_file hfs,
      pathExists_file hfd, islink_file hfd, isdir_file hfd,
      contentAt_file hfs, readFile_file hfs, readFile_file hfd, hsub, hattr]

/-- Witness for C3: check mode with absent content reports `changed=true`
and leaves the filesystem untouched. -/
theorem c3_check_mode_dry_run_witness :
    ("s" : String) ≠ "d" ∧
    (mkEnv true false).attrDelta = false ∧
    main (mkEnv true false) ⟨"s", "d", true, true, true⟩
        (plainFS "s" "d" "zz" "abc" true true) =
      .ok ⟨"d", "s", .str "md5(zz)", "sha1(zz)", true, !(strContains "abc" "zz"),
           Option.none⟩
        (plainFS "s" "d" "zz" "abc" true true) :=
  ⟨by decide, rfl,
   c3_check_mode_dry_run (mkEnv true false) "s" "d" "zz" "abc" true true true
     (by decide) rfl⟩

/-- Claim C4, counterexample: The claim says a symlink destination is replaced
by an empty regular file at the same path.  On a concrete run (destination
`"L"` a symlink to regular file `"T"`, `force=true`, no check mode) the call
succeeds, yet the entry at `"L"` is still the symlink afterwards: the
in-source conversion branch tests `os.path.islink` on the already-resolved
real path and can never fire. -/
theorem c4_symlink_conversion_counterexample :
    (main (mkEnv true false) ⟨"s", "L", false, true, false⟩
        (linkFS "s" "L" "T" "zz" "abc")).isOk = true ∧
    find (main (mkEnv true false) ⟨"s", "L", false, true, false⟩
        (linkFS "s" "L" "T" "zz" "abc")).fsAfter "L" = some (.symlink "T") := by
  constructor
  · decide
  · decide

/-- Claim C4, amended: When the supplied destination is a symlink to an
existing regular file, no conversion takes place: the destination is
replaced by its resolved real target for the whole append phase, the
symlink entry survives the call unchanged, and a forced append mutates the
target file, not the link. -/
theorem c4_symlink_resolved_not_converted (env : Env)
    (src link target sc dc : String) (force : Bool)
    (h1 : src ≠ link) (h2 : src ≠ target) (h3 : link ≠ target) :
    (main env ⟨src, link, false, force, false⟩
        (linkFS src link target sc dc)).isOk = true ∧
    find (main env ⟨src, link, false, force, false⟩
        (linkFS src link target sc dc)).fsAfter link = some (.symlink target) ∧
    (force = true →
      contentAt (main env ⟨src, link, false, force, false⟩
        (linkFS src link target sc dc)).fsAfter target = dc ++ sc) := by
  have h1' : link ≠ src := Ne.symm h1
  have h2' : target ≠ src := Ne.symm h2
  have h3' : target ≠ link := Ne.symm h3
  have hfs := linkFS_find_src src link target sc dc
  have hfl := linkFS_find_link src link target sc dc h1'
  have hft := linkFS_find_target src link target sc dc h2' h3'
  have hrl : realpathN (linkFS src link target sc dc) link = target :=
    realpathN_link _ _ _ hfl (not_symlink_of_find_file hft)
  have hfind2 : find [(src, Entry.file sc true true),
      (link, Entry.symlink target), (target, Entry.file (dc ++ sc) true true)]
      target = some (.file (dc ++ sc) true true) := by simp [h2', h3']
  cases force with
  | true =>
    refine ⟨?_, ?_, ?_⟩ <;>
      simp [main, appendPhase, Outcome.isOk, Outcome.fsAfter,
        pathExists_file hfs, accessR_file hfs, pathExists_link_file hfl hft,
        islink_link hfl, hrl, isdir_file hft, islink_file hft,
        contentAt_file hfs, readFile_file hfs, appendToFile_file hft,
        setContent_linkFS_target _ _ _ _ _ _ h2' h3', h1', h3',
        contentAt_file hfind2]
  | false =>
    cases hsub : strContains dc sc <;>
      refine ⟨?_, ?_, ?_⟩ <;>
        simp [main, appendPhase, Outcome.isOk, Outcome.fsAfter,
          pathExists_file hfs, accessR_file hfs, pathExists_link_file hfl hft,
          islink_link hfl, hrl, isdir_file hft, islink_file hft,
          contentAt_file hfs, readFile_file hfs, readFile_file hft, hsub,
          appendToFile_file hft, hfl,
          setContent_linkFS_target _ _ _ _ _ _ h2' h3', h1', h3']

/-- Witness for C4 (amended) at a concrete symlinked destination. -/
theorem c4_symlink_resolved_not_converted_witness :
    ("s" : String) ≠ "L" ∧ ("s" : String) ≠ "T" ∧ ("L" : String) ≠ "T" ∧
    ((main (mkEnv true false) ⟨"s", "L", false, true, false⟩
        (linkFS "s" "L" "T" "zz" "abc")).isOk = true ∧
     find (main (mkEnv true false) ⟨"s", "L", false, true, false⟩
        (linkFS "s" "L" "T" "zz" "abc")).fsAfter "L" = some (.symlink "T") ∧
     (true = true →
       contentAt (main (mkEnv true false) ⟨"s", "L", false, true, false⟩
          (linkFS "s" "L" "T" "zz" "abc")).fsAfter "T" = "abc" ++ "zz")) :=
  ⟨by decide, by decide, by decide,
   c4_symlink_resolved_not_converted (mkEnv true false) "s" "L" "T" "zz" "abc"
     true (by decide) (by decide) (by decide)⟩

/-- Claim C5, counterexample: The claim says the directory test is applied to
the destination path as supplied, before symlink resolution.  With
destination `"L"` a symlink to directory `"D"`, the failure message names
the resolved path `"D"`, not the supplied `"L"`: resolution happened first
and the test ran on the resolved path. -/
theorem c5_dircheck_order_counterexample :
    (main (mkEnv true false) ⟨"s", "L", false, true, false⟩
        [("s", .file "zz" true true), ("L", .symlink "D"), ("D", .dir)]).failMsg
      = some "Source D is directory, must be file" ∧
    (main (mkEnv true false) ⟨"s", "L", false, true, false⟩
        [("s", .file "zz" true true), ("L", .symlink "D"), ("D", .dir)]).failMsg
      ≠ some "Source L is directory, must be file" := by
  constructor
  · decide
  · decide

/-- Claim C5, amended: Symlink resolution precedes the directory check: a
symlink destination is first replaced by its real target path, and the
`isdir` test (and the error message it produces) applies to the resolved
path.  Since `os.path.isdir` itself follows symlinks, the accept/reject
outcome is the same either way; only the reported path differs. -/
theorem c5_resolution_before_dircheck (env : Env)
    (src link dirp sc : String) (backup force check : Bool)
    (h1 : src ≠ link) (h2 : src ≠ dirp) (h3 : link ≠ dirp) :
    main env ⟨src, link, backup, force, check⟩
        [(src, .file sc true true), (link, .symlink dirp), (dirp, .dir)] =
      .failed ("Source " ++ dirp ++ " is directory, must be file")
        [(src, .file sc true true), (link, .symlink dirp), (dirp, .dir)] := by
  have h1' : link ≠ src := Ne.symm h1
  have h2' : dirp ≠ src := Ne.symm h2
  have h3' : dirp ≠ link := Ne.symm h3
  have hfs : find [(src, Entry.file sc true true), (link, Entry.symlink dirp),
      (dirp, Entry.dir)] src = some (.file sc true true) := by simp
  have hfl : find [(src, Entry.file sc true true), (link, Entry.symlink dirp),
      (dirp, Entry.dir)] link = some (.symlink dirp) := by simp [h1']
  have hfd : find [(src, Entry.file sc true true), (link, Entry.symlink dirp),
      (dirp, Entry.dir)] dirp = some .dir := by simp [h2', h3']
  have hrl : realpathN [(src, Entry.file sc true true),
      (link, Entry.symlink dirp), (dirp, Entry.dir)] link = dirp :=
    realpathN_link _ _ _ hfl (not_symlink_of_find_dir hfd)
  simp [main, pathExists_file hfs, accessR_file hfs,
    pathExists_link_dir hfl hfd, islink_link hfl, hrl, isdir_dir hfd]

/-- Witness for C5 (amended): the resolved directory path appears in the
failure message. -/
theorem c5_resolution_before_dircheck_witness :
    ("s" : String) ≠ "L" ∧ ("s" : String) ≠ "D" ∧ ("L" : String) ≠ "D" ∧
    main (mkEnv true false) ⟨"s", "L", false, true, false⟩
        [("s", .file "zz" true true), ("L", .symlink "D"), ("D", .dir)] =
      .failed ("Source " ++ "D" ++ " is directory, must be file")
        [("s", .file "zz" true true), ("L", .symlink "D"), ("D", .dir)] :=
  ⟨by decide, by decide, by decide,
   c5_resolution_before_dircheck (mkEnv true false) "s" "L" "D" "zz" false true
     false (by decide) (by decide) (by decide)⟩

/-- Claim C9: When the supplied destination is a symlink to an existing
regular file, the `dest` field of the returned result is the resolved real
target path, which differs from the path the caller supplied. -/
theorem c9_result_dest_is_resolved_target (env : Env)
    (src link target sc dc : String) (force : Bool)
    (h1 : src ≠ link) (h2 : src ≠ target) (h3 : link ≠ target) :
    (main env ⟨src, link, false, force, false⟩
        (linkFS src link target sc dc)).resArgs.map (fun r => r.dest)
      = some target ∧ target ≠ link := by
  have h1' : link ≠ src := Ne.symm h1
  have h2' : target ≠ src := Ne.symm h2
  have h3' : target ≠ link := Ne.symm h3
  have hfs := linkFS_find_src src link target sc dc
  have hfl := linkFS_find_link src link target sc dc h1'
  have hft := linkFS_find_target src link target sc dc h2' h3'
  have hrl : realpathN (linkFS src link target sc dc) link = target :=
    realpathN_link _ _ _ hfl (not_symlink_of_find_file hft)
  refine ⟨?_, h3'⟩
  cases force with
  | true =>
    simp [main, appendPhase, Outcome.resArgs, pathExists_file hfs,
      accessR_file hfs, pathExists_link_file hfl hft, islink_link hfl, hrl,
      isdir_file hft, islink_file hft, contentAt_file hfs,
      readFile_file hfs, appendToFile_file hft,
      setContent_linkFS_target _ _ _ _ _ _ h2' h3']
  | false =>
    cases hsub : strContains dc sc <;>
      simp [main, appendPhase, Outcome.resArgs, pathExists_file hfs,
        accessR_file hfs, pathExists_link_file hfl hft, islink_link hfl, hrl,
        isdir_file hft, islink_file hft, contentAt_file hfs,
        readFile_file hfs, readFile_file hft, hsub, appendToFile_file hft,
        setContent_linkFS_target _ _ _ _ _ _ h2' h3']

/-- Witness for C9: the result names `"T"` (the target), not `"L"` (the
supplied symlink). -/
theorem c9_result_dest_is_resolved_target_witness :
    ("s" : String) ≠ "L" ∧ ("s" : String) ≠ "T" ∧ ("L" : String) ≠ "T" ∧
    ((main (mkEnv true false) ⟨"s", "L", false, true, false⟩
        (linkFS "s" "L" "T" "zz" "abc")).resArgs.map (fun r => r.dest)
      = some "T" ∧ ("T" : String) ≠ "L") :=
  ⟨by decide, by decide, by decide,
   c9_result_dest_is_resolved_target (mkEnv true false) "s" "L" "T" "zz" "abc"
     true (by decide) (by decide) (by decide)⟩

/-- Claim C8, counterexample: The claim says that when the legacy (MD5) digest
cannot be computed the `md5sum` field is simply omitted from the result.  On
a concrete run with MD5 unavailable the operation succeeds, but the result
dictionary still carries the key `"md5sum"` — with a null value — so the
field is present, not omitted (the code stores `md5sum_src = None` and puts
it into `res_args` unconditionally). -/
theorem c8_md5sum_not_omitted_counterexample :
    (main (mkEnv false false) ⟨"s", "d", false, true, false⟩
        (plainFS "s" "d" "zz" "abc" true true)).isOk = true ∧
    (main (mkEnv false false) ⟨"s", "d", false, true, false⟩
        (plainFS "s" "d" "zz" "abc" true true)).resArgs.map
      (fun r => getVal r.toFields "md5sum") = some (some Value.none) := by
  constructor
  · decide
  · decide

/-- Claim C8, amended: When the legacy digest is unavailable the operation
does not fail: it proceeds normally, the primary (SHA-1) source digest is
computed and returned, and the `md5sum` field is present in the result with
a null value (rather than omitted). -/
theorem c8_md5_unavailable_nonfatal (env : Env) (src dest sc dc : String)
    (hne : src ≠ dest) (hmd5 : env.md5Available = false) :
    main env ⟨src, dest, false, true, false⟩ (plainFS src dest sc dc true true) =
      .ok ⟨dest, src, Value.none, env.sha1 sc, false, true, Option.none⟩
        [(src, .file sc true true), (dest, .file (dc ++ sc) true true)] ∧
    getVal (ResArgs.toFields
        ⟨dest, src, Value.none, env.sha1 sc, false, true, Option.none⟩)
      "md5sum" = some Value.none := by
  have hne' : dest ≠ src := Ne.symm hne
  have hfs := plainFS_find_src src dest sc dc true true
  have hfd := plainFS_find_dest src dest sc dc true true hne'
  constructor
  · simp [main, appendPhase, pathExists_file hfs, accessR_file hfs,
      pathExists_file hfd, islink_file hfd, isdir_file hfd,
      contentAt_file hfs, readFile_file hfs, appendToFile_file hfd,
      setContent_plainFS_dest _ _ _ _ _ _ _ hne', hmd5]
  · simp [getVal_toFields_md5sum]

/-- Witness for C8 (amended) with MD5 unavailable in the environment. -/
theorem c8_md5_unavailable_nonfatal_witness :
    ("s" : String) ≠ "d" ∧ (mkEnv false false).md5Available = false ∧
    (main (mkEnv false false) ⟨"s", "d", false, true, false⟩
        (plainFS "s" "d" "zz" "abc" true true) =
      .ok ⟨"d", "s", Value.none, "sha1(zz)", false, true, Option.none⟩
        [("s", .file "zz" true true), ("d", .file ("abc" ++ "zz") true true)] ∧
     getVal (ResArgs.toFields
        ⟨"d", "s", Value.none, "sha1(zz)", false, true, Option.none⟩)
      "md5sum" = some Value.none) :=
  ⟨by decide, rfl,
   c8_md5_unavailable_nonfatal (mkEnv false false) "s" "d" "zz" "abc"
     (by decide) rfl⟩

/-- Claim C7: A backup artifact (at `dest ++ "." ++ timestamp`) exists after
the call exactly when `backup=true` and a content mutation occurred (never
in check mode, never when `force=false` found the content already present);
its content is the pre-mutation destination content; the `backup_file`
field of the result record is set exactly in that case; and the serialised
result dictionary carries the `"backup_file"` key exactly when it is set. -/
theorem c7_backup_iff_mutation (env : Env) (src dest sc dc : String)
    (backup force check : Bool) (hne : src ≠ dest)
    (hsbp : src ≠ dest ++ "." ++ env.timestamp) :
    find (main env ⟨src, dest, backup, force, check⟩
        (plainFS src dest sc dc true true)).fsAfter
        (dest ++ "." ++ env.timestamp) =
      (if backup && (!check && (force || !strContains dc sc))
       then some (.file dc true true) else Option.none) ∧
    (main env ⟨src, dest, backup, force, check⟩
        (plainFS src dest sc dc true true)).resArgs.map
      (fun r => r.backup_file) =
      some (if backup && (!check && (force || !strContains dc sc))
            then some (dest ++ "." ++ env.timestamp) else Option.none) ∧
    (main env ⟨src, dest, backup, force, check⟩
        (plainFS src dest sc dc true true)).resArgs.map
      (fun r => getVal r.toFields "backup_file") =
      some (if backup && (!check && (force || !strContains dc sc))
            then some (.str (dest ++ "." ++ env.timestamp)) else Option.none) := by
  have hne' : dest ≠ src := Ne.symm hne
  have hbp : dest ≠ dest ++ "." ++ env.timestamp := ne_backupPath dest env.timestamp
  have hbs : dest ++ "." ++ env.timestamp ≠ src := Ne.symm hsbp
  have hbd : dest ++ "." ++ env.timestamp ≠ dest := Ne.symm hbp
  have hfs := plainFS_find_src src dest sc dc true true
  have hfd := plainFS_find_dest src dest sc dc true true hne'
  have hfd1 : find ((dest ++ "." ++ env.timestamp, Entry.file dc true true) ::
      plainFS src dest sc dc true true) dest = some (.file dc true true) := by
    simp [plainFS, hne', hbp]
  have hfbp : find (plainFS src dest sc dc true true)
      (dest ++ "." ++ env.timestamp) = none := by
    simp [plainFS, hbs, hbd]
  cases check with
  | true =>
    cases hsub : strContains dc sc <;>
      refine ⟨?_, ?_, ?_⟩ <;>
        simp [main, appendPhase, Outcome.fsAfter, Outcome.resArgs,
          pathExists_file hfs, accessR_file hfs, pathExists_file hfd,
          islink_file hfd, isdir_file hfd, contentAt_file hfs,
          readFile_file hfs, readFile_file hfd, hsub, hfbp, hbs, hbd,
          getVal_toFields_backup_file]
  | false =>
    cases force with
    | true =>
      cases backup <;>
        refine ⟨?_, ?_, ?_⟩ <;>
          simp [main, appendPhase, Outcome.fsAfter, Outcome.resArgs,
            pathExists_file hfs, accessR_file hfs, pathExists_file hfd,
            islink_file hfd, isdir_file hfd, contentAt_file hfs,
            readFile_file hfs, backupLocal_file hfd, Except.map,
            appendToFile_file hfd, appendToFile_file hfd1,
            setContent_plainFS_dest _ _ _ _ _ _ _ hne',
            setContent_cons_plainFS_dest _ _ _ _ _ _ _ _ _ hne' hbp,
            hfbp, hbs, hbd, getVal_toFields_backup_file]
    | false =>
      cases backup <;> cases hsub : strContains dc sc <;>
        refine ⟨?_, ?_, ?_⟩ <;>
          simp [main, appendPhase, Outcome.fsAfter, Outcome.resArgs,
            pathExists_file hfs, accessR_file hfs, pathExists_file hfd,
            islink_file hfd, isdir_file hfd, contentAt_file hfs,
            readFile_file hfs, readFile_file hfd, hsub,
            backupLocal_file hfd, Except.map,
            appendToFile_file hfd, appendToFile_file hfd1,
            setContent_plainFS_dest _ _ _ _ _ _ _ hne',
            setContent_cons_plainFS_dest _ _ _ _ _ _ _ _ _ hne' hbp,
            hfbp, hbs, hbd, getVal_toFields_backup_file]

/-- Witness for C7: `backup=true`, `force=true`, no check mode — the backup
file exists with the pre-mutation content and is reported. -/
theorem c7_backup_iff_mutation_witness :
    ("s" : String) ≠ "d" ∧
    ("s" : String) ≠ "d" ++ "." ++ (mkEnv true false).timestamp ∧
    (find (main (mkEnv true false) ⟨"s", "d", true, true, false⟩
        (plainFS "s" "d" "zz" "abc" true true)).fsAfter
        ("d" ++ "." ++ (mkEnv true false).timestamp) =
      (if true && (!false && (true || !strContains "abc" "zz"))
       then some (.file "abc" true true) else Option.none) ∧
     (main (mkEnv true false) ⟨"s", "d", true, true, false⟩
        (plainFS "s" "d" "zz" "abc" true true)).resArgs.map
      (fun r => r.backup_file) =
      some (if true && (!false && (true || !strContains "abc" "zz"))
            then some ("d" ++ "." ++ (mkEnv true false).timestamp)
            else Option.none) ∧
     (main (mkEnv true false) ⟨"s", "d", true, true, false⟩
        (plainFS "s" "d" "zz" "abc" true true)).resArgs.map
      (fun r => getVal r.toFields "backup_file") =
      some (if true && (!false && (true || !strContains "abc" "zz"))
            then some (.str ("d" ++ "." ++ (mkEnv true false).timestamp))
            else Option.none)) :=
  ⟨by decide, by decide,
   c7_backup_iff_mutation (mkEnv true false) "s" "d" "zz" "abc" true true false
     (by decide) (by decide)⟩

/-- Claim C10: Destination readability is not a precondition.  With a
destination that exists but is unreadable (though writable): in check mode
(any `force`, any `backup`) and with `force=false`, the call fails with the
coarse append-phase message `"failed to append: <src> to <dest>"` — not a
precondition error — because those branches open the destination for
reading; with `force=true` and no check mode the destination is never read,
so the call succeeds and appends. -/
theorem c10_dest_readability_not_precondition (env : Env)
    (src dest sc dc : String) (hne : src ≠ dest) :
    (∀ force backup : Bool,
      main env ⟨src, dest, backup, force, true⟩
          (plainFS src dest sc dc false true) =
        .failed (appendMsg src dest) (plainFS src dest sc dc false true)) ∧
    (∀ backup : Bool,
      main env ⟨src, dest, backup, false, false⟩
          (plainFS src dest sc dc false true) =
        .failed (appendMsg src dest) (plainFS src dest sc dc false true)) ∧
    main env ⟨src, dest, false, true, false⟩
        (plainFS src dest sc dc false true) =
      .ok ⟨dest, src,
           (if env.md5Available then .str (env.md5 sc) else .none),
           env.sha1 sc, false, true, Option.none⟩
        [(src, .file sc true true), (dest, .file (dc ++ sc) false true)] := by
  have hne' : dest ≠ src := Ne.symm hne
  have hfs := plainFS_find_src src dest sc dc false true
  have hfd := plainFS_find_dest src dest sc dc false true hne'
  refine ⟨fun force backup => ?_, fun backup => ?_, ?_⟩ <;>
    simp [main, appendPhase, pathExists_file hfs, accessR_file hfs,
      pathExists_file hfd, islink_file hfd, isdir_file hfd,
      contentAt_file hfs, readFile_file hfs, readFile_file hfd,
      appendToFile_file hfd, setContent_plainFS_dest _ _ _ _ _ _ _ hne']

/-- Witness for C10: the three behaviours at a concrete unreadable (but
writable) destination. -/
theorem c10_dest_readability_not_precondition_witness :
    ("s" : String) ≠ "d" ∧
    (main (mkEnv true false) ⟨"s", "d", false, true, true⟩
        (plainFS "s" "d" "zz" "abc" false true) =
      .failed (appendMsg "s" "d") (plainFS "s" "d" "zz" "abc" false true)) ∧
    (main (mkEnv true false) ⟨"s", "d", false, false, false⟩
        (plainFS "s" "d" "zz" "abc" false true) =
      .failed (appendMsg "s" "d") (plainFS "s" "d" "zz" "abc" false true)) ∧
    (main (mkEnv true false) ⟨"s", "d", false, true, false⟩
        (plainFS "s" "d" "zz" "abc" false true) =
      .ok ⟨"d", "s", .str "md5(zz)", "sha1(zz)", false, true, Option.none⟩
        [("s", .file "zz" true true), ("d", .file ("abc" ++ "zz") false true)]) :=
  ⟨by decide,
   (c10_dest_readability_not_precondition (mkEnv true false) "s" "d" "zz" "abc"
     (by decide)).1 true false,
   (c10_dest_readability_not_precondition (mkEnv true false) "s" "d" "zz" "abc"
     (by decide)).2.1 false,
   (c10_dest_readability_not_precondition (mkEnv true false) "s" "d" "zz" "abc"
     (by decide)).2.2⟩

end Concatfile
